import Mathlib

/-!
Verification development for the qs-emergo-app-inspector extension
(src/qs-emergo-app-inspector.js).

The JavaScript module is shallowly embedded: JavaScript values that flow
through the claim-relevant code paths are modelled by the inductive type
`JVal`; plain objects used as ordered string-keyed maps are modelled by
association lists in insertion order; host (Qlik) APIs that the module
merely calls (translator, qlik, appInfo data-definition helpers) are
modelled as explicit parameters or logged effects, since they are not part
of this repository.  Fallible operations return `Option`.

Functions keep the source names where Lean allows it.
-/

namespace AppInspector

/-- A JavaScript value, as far as the inspected code paths observe it:
`null`, `undefined`, booleans, (integer) numbers, strings, arrays and
plain objects (ordered string-keyed field lists). -/
inductive JVal where
  | vNull : JVal
  | vUndefined : JVal
  | vBool (b : Bool) : JVal
  | vNum (n : Int) : JVal
  | vStr (s : String) : JVal
  | vArr (elems : List JVal) : JVal
  | vObj (fields : List (String × JVal)) : JVal

/-- JavaScript truthiness: `null`, `undefined`, `false`, `0` and `""` are
falsy; every array and object (even when empty) is truthy. -/
def JVal.truthy : JVal → Bool
  | .vNull => false
  | .vUndefined => false
  | .vBool b => b
  | .vNum n => n != 0
  | .vStr s => s != ""
  | .vArr _ => true
  | .vObj _ => true

/-- The JavaScript `length` property: defined (as a `Nat`) exactly on
strings and arrays, `undefined` (here `none`) on every other value. -/
def JVal.jsLength : JVal → Option Nat
  | .vStr s => some s.length
  | .vArr xs => some xs.length
  | _ => none

mutual

/-- JavaScript string coercion `String(v)` / `v.toString()`.  An array is
coerced to its elements joined with `","`, where `null` and `undefined`
elements become the empty string. -/
def JVal.jsToString : JVal → String
  | .vNull => "null"
  | .vUndefined => "undefined"
  | .vBool b => cond b "true" "false"
  | .vNum n => toString n
  | .vStr s => s
  | .vObj _ => "[object Object]"
  | .vArr xs => JVal.jsJoin "," xs

/-- `Array.prototype.join(sep)`: elements are string-coerced, except that
`null` and `undefined` yield the empty string. -/
def JVal.jsJoin : String → List JVal → String
  | _, [] => ""
  | _, [x] => JVal.jsJoinElem x
  | sep, x :: y :: rest => JVal.jsJoinElem x ++ sep ++ JVal.jsJoin sep (y :: rest)

/-- Element coercion used by `Array.prototype.join`. -/
def JVal.jsJoinElem : JVal → String
  | .vNull => ""
  | .vUndefined => ""
  | .vBool b => cond b "true" "false"
  | .vNum n => toString n
  | .vStr s => s
  | .vObj _ => "[object Object]"
  | .vArr xs => JVal.jsJoin "," xs

end

/-- Escape a string for JSON output (quote and backslash). -/
def jsonQuote (s : String) : String :=
  "\"" ++ String.mk (s.data.flatMap (fun c =>
    if c = '"' then ['\\', '"']
    else if c = '\\' then ['\\', '\\']
    else [c])) ++ "\""

mutual

/-- `JSON.stringify` as used for the copy-to-clipboard code blobs.  The
embedding serializes compactly where the source pretty-prints with tab
indentation, and serializes `undefined` as `null`; no claim observes the
serialized text. -/
def jsonStringify : JVal → String
  | .vNull => "null"
  | .vUndefined => "null"
  | .vBool b => cond b "true" "false"
  | .vNum n => toString n
  | .vStr s => jsonQuote s
  | .vArr xs => "[" ++ jsonArrBody xs ++ "]"
  | .vObj fs => "\x7b" ++ jsonObjBody fs ++ "\x7d"

/-- Comma-separated serialization of an array body. -/
def jsonArrBody : List JVal → String
  | [] => ""
  | [x] => jsonStringify x
  | x :: y :: rest => jsonStringify x ++ "," ++ jsonArrBody (y :: rest)

/-- Comma-separated serialization of an object body. -/
def jsonObjBody : List (String × JVal) → String
  | [] => ""
  | [p] => jsonQuote p.1 ++ ":" ++ jsonStringify p.2
  | p :: q :: rest => jsonQuote p.1 ++ ":" ++ jsonStringify p.2 ++ "," ++ jsonObjBody (q :: rest)

end

/-- One entry of a raw `item.details` map before normalization: either a
bare JavaScript value, or an object of the `{ label, value, isCode }`
shape used throughout the module (absent `label` / `isCode` are `none` /
`false`). -/
inductive DetailEntry where
  | raw (v : JVal) : DetailEntry
  | obj (label : Option String) (value : JVal) (isCode : Bool) : DetailEntry

/-- The value `prepareItem` extracts from a detail entry: the `value`
property when the entry is an object carrying one, the entry itself
otherwise. -/
def DetailEntry.valueOf : DetailEntry → JVal
  | .raw v => v
  | .obj _ v _ => v

/-- Whether the entry is the literal `null` or `undefined` (skipped by
`prepareItem`). -/
def DetailEntry.isNullOrUndefined : DetailEntry → Bool
  | .raw .vNull => true
  | .raw .vUndefined => true
  | _ => false

/-- The entry's `label` property (`undefined` on bare values). -/
def DetailEntry.labelOf : DetailEntry → Option String
  | .raw _ => none
  | .obj l _ _ => l

/-- The entry's `isCode` property coerced to boolean (`!!`). -/
def DetailEntry.isCodeFlag : DetailEntry → Bool
  | .raw _ => false
  | .obj _ _ c => c

/-- JavaScript truthiness of the entry itself (objects are always truthy). -/
def DetailEntry.truthy : DetailEntry → Bool
  | .raw v => v.truthy
  | .obj _ _ _ => true

/-- A normalized detail row as produced by `prepareItem`: a record with
fields `name`, `label`, `value` and `isCode`. -/
structure DetailRow where
  name : String
  label : String
  value : JVal
  isCode : Bool

/-- A code blob for copy-to-clipboard: `{ label, value }` with the value
already serialized to a string. -/
structure CodeRec where
  label : String := ""
  value : String := ""

/-- A visualization object's `properties.qInfo`. -/
structure QInfo where
  qType : String := ""
  qId : String := ""

/-- Extension metadata as stored on a visualization
(`properties.extensionMeta`) or as synthesized from `qInfo.qType`. -/
structure ExtMeta where
  name : String := ""
  template : String := ""
  isThirdParty : Bool := false

/-- A `title` or `subtitle` property: either a plain value or an object
carrying a `qStringExpression.qExpr` string expression. -/
inductive ExprOr where
  | val (v : JVal) : ExprOr
  | strExpr (qExpr : String) : ExprOr

/-- Evaluation of `t && t.qStringExpression ? t.qStringExpression.qExpr : t`:
a plain value passes through (whether truthy or not it has no
`qStringExpression`); an expression object is truthy and yields `qExpr`. -/
def exprOrValue : ExprOr → JVal
  | .val v => v
  | .strExpr e => .vStr e

/-- The parts of `object.masterobject` the module reads: `qInfo.qId` and
`qMetaDef.title`. -/
structure MasterObjectRef where
  qInfoQId : String := ""
  qMetaDefTitle : String := ""

/-- A visualization object's `properties` record, restricted to the fields
the module reads. -/
structure VizProperties where
  qInfo : QInfo := {}
  extensionMeta : Option ExtMeta := none
  title : ExprOr := .val .vUndefined
  subtitle : ExprOr := .val .vUndefined

/-- A visualization object as delivered inside `sheet.visualizations`. -/
structure VizObject where
  cellName : String := ""
  errors : List JVal := []
  properties : VizProperties := {}
  children : List JVal := []
  masterobject : Option MasterObjectRef := none

/-- The normalized display item produced by `prepareItem`, without the
optional `items` sub-item list (sub-items never nest further).  Absent
JavaScript fields are modelled by defaults (`""`, `none`, `[]`,
`undefined`). -/
structure PreparedCore where
  id : String := ""
  label : String := ""
  icon : String := ""
  isThirdParty : Bool := false
  isMasterObject : JVal := .vUndefined
  count : Nat := 0
  details : List DetailRow := []
  errors : JVal := .vUndefined
  searchTerms : JVal := .vUndefined
  preview : Option String := none
  properties : Option JVal := none
  children : Option JVal := none
  layout : Option JVal := none
  code : List (String × CodeRec) := []
  visualizations : List VizObject := []
  asset : Option String := none

/-- A normalized display item, optionally carrying nested sub-items (the
grouped-duplicates case). -/
structure PreparedItem extends PreparedCore where
  items : Option (List PreparedCore) := none

/-- An item before normalization by `prepareItem`: `details` is still the
raw string-keyed map and `searchTerms` an arbitrary JavaScript value
(`undefined` when never set).  The same open-record shape also serves for
the host-returned asset lists (e.g. sheet info items, which carry
`visualizations`). -/
structure RawItem where
  id : String := ""
  label : String := ""
  icon : String := ""
  isThirdParty : Bool := false
  isMasterObject : JVal := .vUndefined
  count : Nat := 0
  details : List (String × DetailEntry) := []
  errors : JVal := .vUndefined
  searchTerms : JVal := .vUndefined
  items : Option (List PreparedCore) := none
  preview : Option String := none
  properties : Option JVal := none
  children : Option JVal := none
  layout : Option JVal := none
  code : List (String × CodeRec) := []
  visualizations : List VizObject := []
  asset : Option String := none

instance : Inhabited RawItem := ⟨{}⟩

instance : Inhabited PreparedCore := ⟨{}⟩

instance : Inhabited PreparedItem := ⟨{}⟩

/-- The fallback label for a detail key: `i[0].toUpperCase() + i.substr(1)`
(the source never reaches this with an empty key, on which JavaScript
would throw). -/
def capitalizeKey (k : String) : String :=
  match k.data with
  | [] => ""
  | c :: cs => String.mk (c.toUpper :: cs)

/-- The display filter `false === value || (value && value.length)` applied
to a detail value: keep the boolean `false`, and keep any truthy value
whose `length` is defined and nonzero. -/
def jsKeepValue : JVal → Bool
  | .vBool false => true
  | v => v.truthy && (match v.jsLength with
      | some (_ + 1) => true
      | _ => false)

/-- Whether `prepareItem` keeps a raw detail entry: it is neither `null`
nor `undefined`, and its extracted value passes the display filter. -/
def keepDetail (e : DetailEntry) : Bool :=
  ! e.isNullOrUndefined && jsKeepValue e.valueOf

/-- The normalized row `prepareItem` pushes for a kept entry under key
`k`: the entry's label (or the capitalized key when absent or empty), the
value wrapped into an array when it is not one already, and the coerced
`isCode` flag. -/
def detailRowOf (k : String) (e : DetailEntry) : DetailRow :=
  { name := k
    label := match e.labelOf with
      | some s => if s != "" then s else capitalizeKey k
      | none => capitalizeKey k
    value := match e.valueOf with
      | .vArr xs => .vArr xs
      | v => .vArr [v]
    isCode := e.isCodeFlag }

/-- `item.details.tags`: lookup of the `tags` key in the raw detail map. -/
def detailsTags (ds : List (String × DetailEntry)) : Option DetailEntry :=
  ds.lookup "tags"

/-- `tags.value.join(" ")`; JavaScript would throw when the `tags` entry
carries no array value, which never happens in this module. -/
def tagsJoined (e : DetailEntry) : String :=
  match e.valueOf with
  | .vArr xs => JVal.jsJoin " " xs
  | _ => ""

/-- The `searchTerms` value after `prepareItem`: defaulted to `""` when
falsy, with the `tags` detail joined and appended (string-coercing `+=`)
when a truthy `tags` entry exists. -/
def prepareSearchTerms (item : RawItem) : JVal :=
  let st0 : JVal := if item.searchTerms.truthy then item.searchTerms else .vStr ""
  match detailsTags item.details with
  | some e => if e.truthy then .vStr (st0.jsToString ++ tagsJoined e ++ " ") else st0
  | none => st0

/-- `prepareItem` (source lines 906-968): defaults `searchTerms` to `""`,
appends the `tags` detail to the search terms, replaces the raw `details`
map by the array of kept normalized rows, and (when the item carries no
sub-items) collects `layout` / `properties` / `children` code blobs that
are not already present. -/
def prepareItem (item : RawItem) : PreparedItem :=
  let st1 : JVal := prepareSearchTerms item
  let rows : List DetailRow := item.details.filterMap (fun p =>
    if keepDetail p.2 then some (detailRowOf p.1 p.2) else none)
  let code1 : List (String × CodeRec) :=
    if item.items.isSome then item.code
    else
      let cA := match item.layout with
        | some l =>
          if (item.code.lookup "layout").isSome then item.code
          else item.code ++ [("layout", { label := "Layout", value := jsonStringify l })]
        | none => item.code
      let cB := match item.properties with
        | some p =>
          if (cA.lookup "properties").isSome then cA
          else cA ++ [("properties", { label := "Properties", value := jsonStringify p })]
        | none => cA
      match item.children with
      | some ch =>
        if ch.truthy && (cB.lookup "children").isNone then
          cB ++ [("children", { label := "Children", value := jsonStringify ch })]
        else cB
      | none => cB
  { id := item.id
    label := item.label
    icon := item.icon
    isThirdParty := item.isThirdParty
    isMasterObject := item.isMasterObject
    count := item.count
    details := rows
    errors := item.errors
    searchTerms := st1
    preview := item.preview
    properties := item.properties
    children := item.children
    layout := item.layout
    code := code1
    visualizations := item.visualizations
    asset := item.asset
    items := item.items }

/-- The global session options read off `currApp.global.session.options`.
The source field `prefix` is named `prefixStr` here.  The port is kept as
a string (JavaScript concatenates it into the URI). -/
structure GlobalOpts where
  isSecure : Bool := true
  host : String := ""
  port : String := ""
  prefixStr : String := ""

/-- `prefix.replace(/\/+$/g, "")`: strip trailing slashes. -/
def stripTrailingSlashes (s : String) : String :=
  String.mk ((s.data.reverse.dropWhile (fun c => c == '/')).reverse)

/-- The app's global `baseURI` (source lines 977-985). -/
def baseURI (g : GlobalOpts) : String :=
  (cond g.isSecure "https://" "http://")
    ++ g.host ++ ":" ++ g.port ++ stripTrailingSlashes g.prefixStr ++ "/"

/-- UTF-8 byte sequence of a character, as natural numbers. -/
def utf8Bytes (c : Char) : List Nat :=
  let n := c.toNat
  if n < 128 then [n]
  else if n < 2048 then [192 + n / 64, 128 + n % 64]
  else if n < 65536 then [224 + n / 4096, 128 + (n / 64) % 64, 128 + n % 64]
  else [240 + n / 262144, 128 + (n / 4096) % 64, 128 + (n / 64) % 64, 128 + n % 64]

/-- Uppercase hexadecimal digit for `n < 16`. -/
def hexDigit (n : Nat) : Char :=
  if n < 10 then Char.ofNat (48 + n) else Char.ofNat (55 + n)

/-- Characters `encodeURIComponent` leaves unescaped. -/
def isUriUnreserved (c : Char) : Bool :=
  c.isAlpha || c.isDigit
    || c ∈ ['-', '_', '.', '!', '~', '*', Char.ofNat 39, '(', ')']

/-- JavaScript `encodeURIComponent`: percent-encode the UTF-8 bytes of
every reserved character. -/
def encodeURIComponent (s : String) : String :=
  String.mk (s.data.flatMap (fun c =>
    if isUriUnreserved c then [c]
    else (utf8Bytes c).flatMap (fun b => ['%', hexDigit (b / 16), hexDigit (b % 16)])))

/-- Options for the single-sheet / single-visualization URL builders; the
source passes `sheetId` or `objId` depending on the builder. -/
structure SingleUrlOptions where
  appId : String := ""
  sheetId : String := ""
  objId : String := ""
  opts : Option String := none

/-- `options.opts || "nointeraction,noselections"`: an absent or empty
string falls back to the default. -/
def jsOrDefaultStr (o : Option String) (dflt : String) : String :=
  match o with
  | some s => if s != "" then s else dflt
  | none => dflt

/-- `getSingleSheetUrl` (source lines 993-998). -/
def getSingleSheetUrl (g : GlobalOpts) (options : SingleUrlOptions) : String :=
  baseURI g ++ "single/?appid=" ++ encodeURIComponent options.appId
    ++ "&sheet=" ++ options.sheetId
    ++ "&opt=" ++ jsOrDefaultStr options.opts "nointeraction,noselections"

/-- `getSingleVizUrl` (source lines 1006-1011). -/
def getSingleVizUrl (g : GlobalOpts) (options : SingleUrlOptions) : String :=
  baseURI g ++ "single/?appid=" ++ encodeURIComponent options.appId
    ++ "&obj=" ++ options.objId
    ++ "&opt=" ++ jsOrDefaultStr options.opts "nointeraction,noselections"

/-- One entry of a data definition returned by the external
`appInfo.getDataDefinition` / `appInfo.getChildrenDataDefinition`
helpers: a `{ label, value }` record whose value is an array of strings
(the source joins it with `" "`). -/
structure DataDetail where
  label : String := ""
  value : List String := []

/-- The host-provided APIs the module imports but that live outside this
repository (`translator`, `util/app-info`): the translator and the data
definition helpers.  The data definition helper is a single JavaScript
function; it is split here by the type of its argument at each call site
(visualization properties, master object, children list). -/
structure HostApi where
  translate : String → String := fun key => key
  gopts : GlobalOpts := {}
  getDataDefinitionProps : VizProperties → List (String × DataDetail) := fun _ => []
  getDataDefinitionMaster : MasterObjectRef → List (String × DataDetail) := fun _ => []
  getChildrenDataDefinition : List JVal → List (String × DataDetail) := fun _ => []

instance : Inhabited HostApi := ⟨{}⟩

/-- JavaScript object-key assignment on an association list: replace the
value in place when the key exists, append otherwise. -/
def setKey {α : Type} (ds : List (String × α)) (k : String) (v : α) : List (String × α) :=
  if (ds.lookup k).isSome then ds.map (fun p => if p.1 == k then (k, v) else p)
  else ds ++ [(k, v)]

/-- A data-definition entry stored into a detail map becomes an object
entry with the label, the string array as value, and no `isCode` flag. -/
def dataDetailEntry (d : DataDetail) : DetailEntry :=
  .obj (some d.label) (.vArr (d.value.map JVal.vStr)) false

/-- The `for (i in data) { item.details[i] = data[i]; ... }` loop, detail
map part. -/
def applyDataDefinition (data : List (String × DataDetail))
    (ds : List (String × DetailEntry)) : List (String × DetailEntry) :=
  data.foldl (fun acc p => setKey acc p.1 (dataDetailEntry p.2)) ds

/-- The search terms accumulated by the same loop:
`data[i].value.join(" ").concat(" ")` for each entry, in order. -/
def dataSearchTerms (data : List (String × DataDetail)) : String :=
  String.join (data.map (fun p => String.intercalate " " p.2.value ++ " "))

/-- `_.uniq(list, false, f)`: keep the first element for every distinct
iteratee value. -/
def uniqBy {α : Type} {κ : Type} [DecidableEq κ] (f : α → κ) : List α → List α
  | [] => []
  | x :: xs => x :: uniqBy f (xs.filter (fun y => decide (f y ≠ f x)))
termination_by l => l.length
decreasing_by
  simp only [List.length_cons]
  exact Nat.lt_succ_of_le (List.length_filter_le _ _)

/-- One entry of the host-returned `extensionList` map, restricted to the
fields the module reads (`bundle && bundle.name` is flattened into
`bundleName`).  An absent entry is modelled by all fields `none`. -/
structure ExtListEntry where
  name : Option String := none
  version : Option String := none
  description : Option String := none
  author : Option String := none
  bundleName : Option String := none

instance : Inhabited ExtListEntry := ⟨{}⟩

/-- `x || null` for an optional string property: absent or empty becomes
`null`, anything else the string itself. -/
def orNullVal (o : Option String) : JVal :=
  match o with
  | some s => if s != "" then .vStr s else .vNull
  | none => .vNull

/-- A flattened sheet object (source lines 145-163): one record per
visualization with the owning sheet's id under `details.sheet` and the
extension metadata defaulted from `qInfo.qType`. -/
structure SheetObject where
  id : String := ""
  detailsSheet : String := ""
  errors : List JVal := []
  meta : ExtMeta := {}
  properties : VizProperties := {}
  children : List JVal := []
  masterobject : Option MasterObjectRef := none

instance : Inhabited SheetObject := ⟨{}⟩

/-- The record built for one visualization of one sheet. -/
def sheetObjectOfViz (sheetId : String) (object : VizObject) : SheetObject :=
  { id := object.cellName
    detailsSheet := sheetId
    errors := object.errors
    meta := match object.properties.extensionMeta with
      | some m => m
      | none =>
        { name := object.properties.qInfo.qType
          template := object.properties.qInfo.qType
          isThirdParty := false }
    properties := object.properties
    children := object.children
    masterobject := object.masterobject }

/-- `_.flatten(sheetInfo.map(...), 1)`: all visualization objects of all
sheets, flattened one level. -/
def sheetObjectsOf (sheetInfo : List RawItem) : List SheetObject :=
  (sheetInfo.map (fun sheet => sheet.visualizations.map (sheetObjectOfViz sheet.id))).flatten

/-- The label of a `sheetInfo.find(...)` result; JavaScript would throw on
a missing sheet, which cannot happen for objects derived from the same
sheet list. -/
def optSheetLabel (o : Option RawItem) : String :=
  match o with
  | some s => s.label
  | none => ""

/-- The `sheets` detail value (source lines 228-239): deduplicate the
related sheets by label and prefix each label with its multiplicity when
it occurs more than once. -/
def sheetsDetailValue (sheets : List (Option RawItem)) : List String :=
  (uniqBy optSheetLabel sheets).map (fun a =>
    let count := (sheets.filter (fun b => optSheetLabel a == optSheetLabel b)).length
    (if 1 < count then toString count ++ " x " else "") ++ optSheetLabel a)

/-- `masterobject && masterobject.qMetaDef.title || null`. -/
def masterTitleOrNull (mo : Option MasterObjectRef) : JVal :=
  match mo with
  | some m => if m.qMetaDefTitle != "" then .vStr m.qMetaDefTitle else .vNull
  | none => .vNull

/-- `masterobject && masterobject.qInfo.qId`: `undefined` when there is no
master object, the id string otherwise. -/
def masterIdOrUndefined (mo : Option MasterObjectRef) : JVal :=
  match mo with
  | some m => .vStr m.qInfoQId
  | none => .vUndefined

/-- Serialization of a title property for `JSON.stringify` payloads. -/
def exprOrToJVal : ExprOr → JVal
  | .val v => v
  | .strExpr e => .vObj [("qStringExpression", .vObj [("qExpr", .vStr e)])]

/-- Serialization of visualization properties for `JSON.stringify`
payloads. -/
def vizPropertiesToJVal (p : VizProperties) : JVal :=
  .vObj ([("qInfo", .vObj [("qType", .vStr p.qInfo.qType), ("qId", .vStr p.qInfo.qId)])]
    ++ (match p.extensionMeta with
        | some m => [("extensionMeta",
            .vObj [("name", .vStr m.name), ("template", .vStr m.template),
                   ("isThirdParty", .vBool m.isThirdParty)])]
        | none => [])
    ++ [("title", exprOrToJVal p.title), ("subtitle", exprOrToJVal p.subtitle)])

/-- The sub-item built for one of several objects sharing a visualization
type (source lines 262-326), already normalized by `prepareItem`; the
second component is the contribution this object's data definition makes
to the parent item's `searchTerms`. -/
def buildSubItem (host : HostApi) (sheetInfo : List RawItem) (appId : String)
    (a : SheetObject) : PreparedCore × String :=
  let subRaw0 : RawItem :=
    { id := a.id
      isMasterObject := masterIdOrUndefined a.masterobject
      details := [
        ("masterobject", .obj (some (host.translate "properties.masterItem"))
          (masterTitleOrNull a.masterobject) false),
        ("title", .obj (some (host.translate "properties.titleExpression"))
          (exprOrValue a.properties.title) false),
        ("subtitle", .obj (some (host.translate "properties.subtitle"))
          (exprOrValue a.properties.subtitle) false),
        ("sheet", .obj (some (host.translate "Common.Sheet"))
          (.vStr (optSheetLabel (sheetInfo.find? (fun b => b.id == a.detailsSheet)))) false)]
      errors := .vArr a.errors
      preview := some (getSingleVizUrl host.gopts
        { appId := appId, objId := a.id, opts := some "nointeraction,noselections" })
      code := [("properties",
        { label := "Properties", value := jsonStringify (vizPropertiesToJVal a.properties) })] }
  let subRaw1 : RawItem :=
    if a.children.length != 0 then
      { subRaw0 with code := subRaw0.code
          ++ [("children", { label := "Children", value := jsonStringify (.vArr a.children) })] }
    else subRaw0
  let data : List (String × DataDetail) :=
    if a.children.length != 0 then host.getChildrenDataDefinition a.children
    else match a.masterobject with
      | some m => host.getDataDefinitionMaster m
      | none => host.getDataDefinitionProps a.properties
  let subRaw2 : RawItem := { subRaw1 with details := applyDataDefinition data subRaw1.details }
  ((prepareItem subRaw2).toPreparedCore, dataSearchTerms data)

/-- The grouped item built for one unique visualization type (source lines
168-362), before the final sort and `prepareItem` pass. -/
def buildGroupedItem (host : HostApi) (sheetInfo : List RawItem)
    (extensionList : List (String × ExtListEntry)) (appId : String)
    (sheetObjects : List SheetObject) (template : SheetObject) : RawItem :=
  let objects := sheetObjects.filter (fun a =>
    template.properties.qInfo.qType == a.properties.qInfo.qType)
  let isMultipleItems := 1 < objects.length
  let isSingleItem := ! isMultipleItems
  let obj0 := objects.headI
  let hasError := (isSingleItem && obj0.errors.length != 0)
    || (isMultipleItems && objects.any (fun it => it.errors.length != 0))
  let sheets := objects.map (fun a => sheetInfo.find? (fun b => b.id == a.detailsSheet))
  let extensionMetadata := (extensionList.lookup template.meta.template).getD {}
  let details : List (String × DetailEntry) := [
    ("masterobject", .obj (some (host.translate "properties.masterItem"))
      (if isSingleItem then masterTitleOrNull obj0.masterobject else .vNull) false),
    ("version", .obj (some (host.translate "geo.properties.wms.version"))
      (orNullVal extensionMetadata.version) false),
    ("title", .obj (some (host.translate "Common.Title"))
      (exprOrValue obj0.properties.title) false),
    ("subtitle", .obj (some (host.translate "properties.subtitle"))
      (exprOrValue obj0.properties.subtitle) false),
    ("description", .obj (some (host.translate "Common.Description"))
      (orNullVal extensionMetadata.description) false),
    ("author", .obj (some (host.translate "Author"))
      (orNullVal extensionMetadata.author) false),
    ("bundle", .obj (some (host.translate "Bundle"))
      (orNullVal extensionMetadata.bundleName) false),
    ("sheets", .obj (some (host.translate "Common.Sheets"))
      (.vArr ((sheetsDetailValue sheets).map JVal.vStr)) false)]
  let item0 : RawItem :=
    { id := template.properties.qInfo.qType
      label := jsOrDefaultStr extensionMetadata.name template.meta.name
      icon := cond hasError "debug" ""
      isThirdParty := template.meta.isThirdParty
      isMasterObject := if isSingleItem then masterIdOrUndefined obj0.masterobject else .vBool false
      count := if isSingleItem then 0 else objects.length
      details := details
      errors := if isSingleItem then .vArr obj0.errors else .vBool false
      searchTerms := .vStr "" }
  if isMultipleItems then
    let step := objects.map (buildSubItem host sheetInfo appId)
    { item0 with
        details := item0.details.filter (fun p => p.1 != "title" && p.1 != "subtitle")
        items := some (step.map Prod.fst)
        searchTerms := .vStr (String.join (step.map Prod.snd)) }
  else
    let withChildren := obj0.children.length != 0
    let data : List (String × DataDetail) :=
      if withChildren then host.getChildrenDataDefinition obj0.children
      else host.getDataDefinitionProps obj0.properties
    { item0 with
        properties := some (vizPropertiesToJVal obj0.properties)
        children := if withChildren then some (.vArr obj0.children) else none
        details := applyDataDefinition data item0.details
        searchTerms := .vStr (dataSearchTerms data)
        preview := some (getSingleVizUrl host.gopts
          { appId := appId, objId := obj0.properties.qInfo.qId,
            opts := some "nointeraction,noselections" }) }

/-- The comparator `a.label.toLowerCase().localeCompare(b.label.toLowerCase())`
of the final sort, with the locale comparison modelled by the
lexicographic order on Lean strings. -/
def labelLe (a b : RawItem) : Bool :=
  decide (a.label.toLower ≤ b.label.toLower)

/-- `getUniqueAppObjectsFromSheets` (source lines 142-366): flatten the
sheets into per-visualization objects, keep one template per distinct
`properties.qInfo.qType`, build a grouped item for each, sort by
lowercased label and normalize every item with `prepareItem`. -/
def getUniqueAppObjectsFromSheets (host : HostApi) (sheetInfo : List RawItem)
    (extensionList : List (String × ExtListEntry)) (appId : String) : List PreparedItem :=
  let sheetObjects := sheetObjectsOf sheetInfo
  (((uniqBy (fun a => a.properties.qInfo.qType) sheetObjects).map
      (buildGroupedItem host sheetInfo extensionList appId sheetObjects)).mergeSort
    labelLe).map prepareItem

/-- The query options `getSheetInfo` passes to the external
`appInfo.sheets`, before `_.defaults` fills the absent ones. -/
structure SheetInfoOptions where
  loadWithObjects : Option Bool := none
  includeSummary : Option Bool := none
  validate : Option Bool := none

/-- `_.defaults(options || {}, { loadWithObjects: true, includeSummary:
true, validate: true })`: only absent keys receive the default. -/
def defaultedSheetInfoOptions (o : SheetInfoOptions) : SheetInfoOptions :=
  { loadWithObjects := some (o.loadWithObjects.getD true)
    includeSummary := some (o.includeSummary.getD true)
    validate := some (o.validate.getD true) }

/-- `getSheetInfo` (source lines 106-128), applied to the sheet list the
external `appInfo.sheets` resolves with (that call, in `util/app-info`,
is not part of src/): every sheet except the first (the summary entry at
index 0) receives a single-sheet preview URL. -/
def getSheetInfo (g : GlobalOpts) (appId : String) (info : List RawItem) : List RawItem :=
  info.enum.map (fun p =>
    if p.1 != 0 then
      { p.2 with preview := some (getSingleSheetUrl g
          { appId := appId, sheetId := p.2.id, opts := some "nointeraction,noselections" }) }
    else p.2)

/-- `pat` occurs as a prefix of `s` (character lists). -/
def isPrefixOfList : List Char → List Char → Bool
  | [], _ => true
  | _ :: _, [] => false
  | a :: as, b :: bs => a == b && isPrefixOfList as bs

/-- `s.indexOf(pat) !== -1` on character lists: `pat` occurs somewhere in
`s` (the empty pattern always occurs). -/
def strContains (pat : List Char) : List Char → Bool
  | [] => isPrefixOfList pat []
  | c :: t => isPrefixOfList pat (c :: t) || strContains pat t

/-- `-1 !== s.indexOf(pat)` on strings. -/
def jsIncludes (s pat : String) : Bool :=
  strContains pat.data s.data

/-- `matchSearchQuery` (source lines 1123-1125): the input is truthy and
its lowercased string form contains the lowercased query. -/
def matchSearchQuery (query : String) (input : JVal) : Bool :=
  input.truthy && jsIncludes input.jsToString.toLower query.toLower

/-- The per-category filter installed by the `search.query` watcher
(source lines 1335-1354): keep an item when the query is empty or matches
its id, its label or its precomputed search terms. -/
def filterBySearchQuery (query : String) (items : List PreparedItem) : List PreparedItem :=
  items.filter (fun a =>
    query.length == 0
      || matchSearchQuery query (.vStr a.id)
      || matchSearchQuery query (.vStr a.label)
      || matchSearchQuery query a.searchTerms)

/-- An already-open app handle, reduced to its identifier. -/
structure QlikApp where
  id : String := ""

/-- A promise stored in the `_apps` cache: an already-resolved app, a
rejection, or the promise chain created around one `qlik.openApp` call
(identified by the index of that call in the session's call log, so that
promise identity is observable). -/
inductive AppPromise where
  | resolvedApp (appId : String) : AppPromise
  | rejected (message : String) : AppPromise
  | openedApp (appId : String) (token : Nat) : AppPromise
deriving DecidableEq, Repr

/-- The module-level state `openApp` reads and writes: the current app,
the `_apps` cache (insertion-ordered), and the log of identifiers passed
to the host's `qlik.openApp`. -/
structure OpenAppState where
  currApp : QlikApp := {}
  apps : List (String × AppPromise) := []
  openCalls : List String := []

/-- The argument of `openApp`: either an app identifier string or an
object that already is an app (`appId.id` truthy). -/
inductive AppRef where
  | byId (appId : String) : AppRef
  | byApp (app : QlikApp) : AppRef

/-- An apostrophe, kept out of string literals. -/
def apos : String := String.singleton (Char.ofNat 39)

/-- The identifier path of `openApp` (source lines 76-96): cache the
current app under its id when absent, call `qlik.openApp` (logging the
call) and cache the resulting promise when the requested id is absent,
then return the cached promise. -/
def openAppById (appId : String) (st : OpenAppState) : AppPromise × OpenAppState :=
  let st1 :=
    if (st.apps.lookup st.currApp.id).isSome then st
    else { st with apps := st.apps ++ [(st.currApp.id, .resolvedApp st.currApp.id)] }
  let st2 :=
    if (st1.apps.lookup appId).isSome then st1
    else { st1 with
        apps := st1.apps ++ [(appId, .openedApp appId st1.openCalls.length)]
        openCalls := st1.openCalls ++ [appId] }
  ((st2.apps.lookup appId).getD (.rejected ""), st2)

/-- `openApp` (source lines 63-97).  An empty identifier is falsy and is
rejected without touching the cache; an app object with a truthy `id`
resolves immediately; an app object with an empty `id` falls through to
the identifier path with the object coerced to the property key
`"[object Object]"`. -/
def openApp : AppRef → OpenAppState → AppPromise × OpenAppState
  | .byId appId, st =>
    if appId = "" then
      (.rejected ("App with id " ++ apos ++ appId ++ apos ++ " not found"), st)
    else openAppById appId st
  | .byApp app, st =>
    if app.id != "" then (.resolvedApp app.id, st)
    else openAppById "[object Object]" st

/-- The initial module state: empty cache, no host calls made. -/
def initialOpenAppState (currApp : QlikApp) : OpenAppState :=
  { currApp := currApp }

/-- Run a sequence of `openApp` calls, keeping only the final state. -/
def runOpenApps (refs : List AppRef) (st : OpenAppState) : OpenAppState :=
  refs.foldl (fun s r => (openApp r s).2) st

/-- The two states of the controller's state machine. -/
inductive FsmState where
  | IDLE : FsmState
  | MODAL : FsmState
deriving DecidableEq, Repr

/-- One transition of the state machine configuration. -/
structure FsmTransition where
  src : FsmState
  dst : FsmState
  name : String

/-- The transition table passed to `util.StateMachine` (source lines
1083-1094). -/
def fsmTransitions : List FsmTransition := [
  { src := .IDLE, dst := .MODAL, name := "OPEN" },
  { src := .MODAL, dst := .IDLE, name := "CLOSE" }]

/-- Modelled from the spec: the `util.StateMachine` implementation lives
in `util/util.js`, which is not under src/; per the spec's description of
the modal session lifecycle it is modelled as a standard transition-table
machine - a named event fires exactly when a listed transition matches
the current state, and an unmatched event changes nothing (`none`). -/
def fsmStep (s : FsmState) (event : String) : Option FsmState :=
  (fsmTransitions.find? (fun t => decide (t.src = s) && t.name == event)).map
    (fun t => t.dst)

/-- The controller's observable state: the machine state and the modal
handle (`none` models the cleared `null` handle). -/
structure ControllerState where
  fsm : FsmState := .IDLE
  modal : Option Unit := none

/-- The events acting on the controller state: the button's open handler
(guarded by the edit-state check, source lines 1451-1455), the modal's
`closed` promise resolving (source lines 1406-1410), and the scope's
`$destroy` handler (source lines 1471-1473). -/
inductive ControllerEvent where
  | openClicked (inEditState : Bool) : ControllerEvent
  | modalClosed : ControllerEvent
  | destroy : ControllerEvent

/-- The effect of the modal's `closed` promise resolving: `fsm.close()`
then `modal = null`. -/
def onModalClosed (s : ControllerState) : ControllerState :=
  match fsmStep s.fsm "CLOSE" with
  | some s2 => { fsm := s2, modal := none }
  | none => { s with modal := none }

/-- One controller step.  `openClicked` fires `fsm.open`, whose
`enterModal` callback shows the modal; `destroy` runs
`closeAppInspectorForApp`, which closes an open modal (firing the
`closed` handler) and does nothing otherwise. -/
def controllerStep (s : ControllerState) : ControllerEvent → ControllerState
  | .openClicked inEditState =>
    if inEditState then
      match fsmStep s.fsm "OPEN" with
      | some s2 => { fsm := s2, modal := some () }
      | none => s
    else s
  | .modalClosed => onModalClosed s
  | .destroy =>
    match s.modal with
    | some _ => onModalClosed s
    | none => s

/-- The resolution state of one host metadata query. -/
inductive QueryState (α : Type) where
  | pending : QueryState α
  | resolved (value : α) : QueryState α
  | rejected (reason : String) : QueryState α

/-- Whether a query has resolved. -/
def QueryState.isResolved {α : Type} : QueryState α → Bool
  | .resolved _ => true
  | _ => false

/-- The resolved value, with a default for the other states. -/
def QueryState.getD {α : Type} (q : QueryState α) (d : α) : α :=
  match q with
  | .resolved v => v
  | _ => d

/-- The record of queries issued by the `$q.all` call of
`showAppInspectorForApp` (source lines 1273-1284), one field per
category.  The source keys `"alternate-state"` and `"variable"` are named
`alternateState` and `variableQ` here. -/
structure InspectorQueries where
  app : QueryState (List RawItem) := .pending
  script : QueryState (List RawItem) := .pending
  field : QueryState (List RawItem) := .pending
  sheet : QueryState (List RawItem) := .pending
  dimension : QueryState (List RawItem) := .pending
  measure : QueryState (List RawItem) := .pending
  masterObject : QueryState (List RawItem) := .pending
  alternateState : QueryState (List RawItem) := .pending
  variableQ : QueryState (List RawItem) := .pending
  bookmark : QueryState (List RawItem) := .pending

/-- The string keys of the `$q.all` record, in source order. -/
def inspectorQueryKeys : List String :=
  ["app", "script", "field", "sheet", "dimension", "measure",
   "masterObject", "alternate-state", "variable", "bookmark"]

/-- The values of all ten queries once resolved. -/
structure ResolvedQueries where
  app : List RawItem := []
  script : List RawItem := []
  field : List RawItem := []
  sheet : List RawItem := []
  dimension : List RawItem := []
  measure : List RawItem := []
  masterObject : List RawItem := []
  alternateState : List RawItem := []
  variableQ : List RawItem := []
  bookmark : List RawItem := []

/-- `$q.all` over the query record: a complete value exactly when every
one of the ten queries has resolved. -/
def resolveInspectorQueries (q : InspectorQueries) : Option ResolvedQueries :=
  if q.app.isResolved && q.script.isResolved && q.field.isResolved
      && q.sheet.isResolved && q.dimension.isResolved && q.measure.isResolved
      && q.masterObject.isResolved && q.alternateState.isResolved
      && q.variableQ.isResolved && q.bookmark.isResolved then
    some
      { app := q.app.getD [], script := q.script.getD [], field := q.field.getD []
        sheet := q.sheet.getD [], dimension := q.dimension.getD []
        measure := q.measure.getD [], masterObject := q.masterObject.getD []
        alternateState := q.alternateState.getD [], variableQ := q.variableQ.getD []
        bookmark := q.bookmark.getD [] }
  else none

/-- The populated `$scope.allItems` display model, one field per category
plus the derived `chart`, `extension` and `errors` lists. -/
structure DisplayModel where
  app : List PreparedItem := []
  script : List PreparedItem := []
  field : List PreparedItem := []
  sheet : List PreparedItem := []
  dimension : List PreparedItem := []
  measure : List PreparedItem := []
  masterObject : List PreparedItem := []
  alternateState : List PreparedItem := []
  variableQ : List PreparedItem := []
  bookmark : List PreparedItem := []
  chart : List PreparedItem := []
  extension : List PreparedItem := []
  errors : List PreparedItem := []

/-- `a.errors && a.errors.length`: the item has a truthy, nonempty error
list. -/
def hasErrorList (errors : JVal) : Bool :=
  errors.truthy && (match errors.jsLength with
    | some (_ + 1) => true
    | _ => false)

/-- Rewrap a sub-item as a top-level item (no nested items). -/
def coreToItem (c : PreparedCore) : PreparedItem :=
  { toPreparedCore := c, items := none }

/-- The error-collection loop of the controller (source lines 1356-1379):
for one category, push every item with errors, then every erroring
sub-item relabelled with its parent's label and the debug icon. -/
def collectCategoryErrors (assetKey : String) (items : List PreparedItem) :
    List PreparedItem :=
  items.flatMap (fun a =>
    (if hasErrorList a.errors then [{ a with asset := some assetKey }] else [])
      ++ (match a.items with
          | some subs => ((subs.filter (fun b => hasErrorList b.errors)).map
              (fun b => coreToItem { b with asset := some assetKey, label := a.label, icon := "debug" }))
          | none => []))

/-- The model population step run once `$q.all` and the follow-up
`appInfo.extensions()` call have resolved (source lines 1292-1379): every
category list is normalized with `prepareItem`; `chart` and `extension`
are derived from the (raw) sheet result by partitioning the grouped
objects on `isThirdParty`; `errors` collects erroring items across the
categories in key order.  The default-bookmark marking of source lines
1307-1324 reads `$scope.allItems.bookmarks`, a key that is never
populated (the category key is `bookmark`), and is therefore not
modelled. -/
def populateDisplayModel (host : HostApi) (appId : String) (r : ResolvedQueries)
    (extensionList : List (String × ExtListEntry)) : DisplayModel :=
  let uniqObjects := getUniqueAppObjectsFromSheets host r.sheet extensionList appId
  let base : DisplayModel :=
    { app := r.app.map prepareItem
      script := r.script.map prepareItem
      field := r.field.map prepareItem
      sheet := r.sheet.map prepareItem
      dimension := r.dimension.map prepareItem
      measure := r.measure.map prepareItem
      masterObject := r.masterObject.map prepareItem
      alternateState := r.alternateState.map prepareItem
      variableQ := r.variableQ.map prepareItem
      bookmark := r.bookmark.map prepareItem
      chart := uniqObjects.filter (fun a => ! a.isThirdParty)
      extension := uniqObjects.filter (fun a => a.isThirdParty) }
  { base with errors :=
      collectCategoryErrors "app" base.app
        ++ collectCategoryErrors "script" base.script
        ++ collectCategoryErrors "field" base.field
        ++ collectCategoryErrors "sheet" base.sheet
        ++ collectCategoryErrors "dimension" base.dimension
        ++ collectCategoryErrors "measure" base.measure
        ++ collectCategoryErrors "masterObject" base.masterObject
        ++ collectCategoryErrors "alternate-state" base.alternateState
        ++ collectCategoryErrors "variable" base.variableQ
        ++ collectCategoryErrors "bookmark" base.bookmark
        ++ collectCategoryErrors "chart" base.chart
        ++ collectCategoryErrors "extension" base.extension }

/-- The inspector's fetch-then-populate pipeline: the display model exists
exactly when `$q.all` has delivered every category (the extension list is
fetched afterwards and is passed in resolved form). -/
def runInspector (host : HostApi) (appId : String) (q : InspectorQueries)
    (extensionList : List (String × ExtListEntry)) : Option DisplayModel :=
  (resolveInspectorQueries q).map (fun r =>
    populateDisplayModel host appId r extensionList)

/-! Auxiliary lemmas. -/

theorem toLower_data (s : String) : s.toLower.data = s.data.map Char.toLower := by
  simp [String.toLower, String.map_eq]

theorem toLower_empty_iff (s : String) : s.toLower = "" ↔ s = "" := by
  rw [String.ext_iff, String.ext_iff, toLower_data]
  show s.data.map Char.toLower = [] ↔ s.data = []
  simp

theorem string_ne_empty_iff_data (s : String) : s ≠ "" ↔ s.data ≠ [] := by
  rw [not_iff_not, String.ext_iff]

theorem strContains_empty_right (pat : List Char) (h : pat ≠ []) :
    strContains pat [] = false := by
  cases pat with
  | nil => exact absurd rfl h
  | cons a as => rfl

theorem matchSearchQuery_vStr (query t : String) (hq : query ≠ "") :
    matchSearchQuery query (.vStr t) = jsIncludes t.toLower query.toLower := by
  by_cases ht : t = ""
  · subst ht
    have h1 : matchSearchQuery query (.vStr "") = false := by
      simp [matchSearchQuery, JVal.truthy]
    have h2 : jsIncludes "".toLower query.toLower = false := by
      have hq2 : query.toLower.data ≠ [] := by
        rw [← string_ne_empty_iff_data]
        intro hc
        exact hq ((toLower_empty_iff query).mp hc)
      have : ("" : String).toLower = "" := by simp [toLower_empty_iff]
      rw [jsIncludes, this]
      exact strContains_empty_right _ hq2
    rw [h1, h2]
  · simp [matchSearchQuery, JVal.truthy, JVal.jsToString, ht]

/-- C2: for every asset category's item list and every search query, the
filtered list shown in the modal contains exactly those items for which
the query is empty, or the lowercased query occurs in the lowercased id,
label, or precomputed search-terms string of the item; filtering never
adds items that were not in the category. -/
theorem filterBySearchQuery_mem_iff (query : String) (items : List PreparedItem)
    (a : PreparedItem) (s : String) (hs : a.searchTerms = JVal.vStr s) :
    a ∈ filterBySearchQuery query items ↔
      a ∈ items ∧ (query = ""
        ∨ jsIncludes a.id.toLower query.toLower = true
        ∨ jsIncludes a.label.toLower query.toLower = true
        ∨ jsIncludes s.toLower query.toLower = true) := by
  rw [filterBySearchQuery, List.mem_filter]
  by_cases hq : query = ""
  · subst hq
    simp
  · have hlen : (query.length == 0) = false := by
      have : query.length ≠ 0 := by
        intro hc
        exact (string_ne_empty_iff_data query).mp hq (List.length_eq_zero.mp hc)
      simp [this]
    rw [hs]
    rw [matchSearchQuery_vStr _ _ hq, matchSearchQuery_vStr _ _ hq,
      matchSearchQuery_vStr _ _ hq, hlen]
    simp [hq, or_assoc]

/-- C2 witness: the filter keeps exactly the matching item on a concrete
category list and query. -/
theorem filterBySearchQuery_mem_iff_witness :
    let a : PreparedItem := { toPreparedCore := { id := "kpi", label := "KPI", searchTerms := JVal.vStr "" } }
    let b : PreparedItem := { toPreparedCore := { id := "barchart", label := "Barchart", searchTerms := JVal.vStr "" } }
    a ∈ filterBySearchQuery "kp" [a, b] ↔
      a ∈ [a, b] ∧ ("kp" = ""
        ∨ jsIncludes "kpi".toLower "kp".toLower = true
        ∨ jsIncludes "KPI".toLower "kp".toLower = true
        ∨ jsIncludes "".toLower "kp".toLower = true) :=
  filterBySearchQuery_mem_iff "kp" _ _ "" rfl

theorem detailRowOf_value_isArr (k : String) (e : DetailEntry) :
    ∃ xs, (detailRowOf k e).value = JVal.vArr xs := by
  rw [detailRowOf]
  cases h : e.valueOf <;> simp

theorem prepareItem_details_eq (item : RawItem) :
    (prepareItem item).details = item.details.filterMap (fun p =>
      if keepDetail p.2 then some (detailRowOf p.1 p.2) else none) := rfl

/-- C3: `prepareItem` normalizes any item into the common display shape:
every produced detail row is a `name`/`label`/`value`/`isCode` record (by
the type `DetailRow`) whose value is an array, with non-array detail
values wrapped into singleton arrays, and the resulting `searchTerms` is
a string whenever the incoming `searchTerms` is a string or unset (falsy),
as it is for every inspected asset category. -/
theorem prepareItem_normalizes (item : RawItem)
    (hst : item.searchTerms.truthy = false ∨ ∃ s, item.searchTerms = JVal.vStr s) :
    (∀ row ∈ (prepareItem item).details, ∃ xs, row.value = JVal.vArr xs)
    ∧ (∃ s, (prepareItem item).searchTerms = JVal.vStr s)
    ∧ (∀ k e, (k, e) ∈ item.details → keepDetail e = true →
        detailRowOf k e ∈ (prepareItem item).details
        ∧ ((∀ xs, e.valueOf ≠ JVal.vArr xs) →
            (detailRowOf k e).value = JVal.vArr [e.valueOf])) := by
  refine ⟨?_, ?_, ?_⟩
  · intro row hrow
    rw [prepareItem_details_eq] at hrow
    obtain ⟨p, hp, hif⟩ := List.mem_filterMap.mp hrow
    by_cases hk : keepDetail p.2 = true
    · rw [if_pos hk] at hif
      cases hif
      exact detailRowOf_value_isArr p.1 p.2
    · rw [if_neg hk] at hif
      cases hif
  · have hst0 : ∃ s0, (if item.searchTerms.truthy then item.searchTerms
        else JVal.vStr "") = JVal.vStr s0 := by
      by_cases ht : item.searchTerms.truthy = true
      · rcases hst with hfalse | ⟨s, hsv⟩
        · rw [ht] at hfalse
          cases hfalse
        · exact ⟨s, by rw [if_pos ht, hsv]⟩
      · exact ⟨"", by rw [if_neg ht]⟩
    show ∃ s, prepareSearchTerms item = JVal.vStr s
    rw [prepareSearchTerms]
    cases h : detailsTags item.details with
    | none => exact hst0
    | some e =>
      simp only
      by_cases he : e.truthy = true
      · exact ⟨_, by rw [if_pos he]⟩
      · rw [if_neg he]
        exact hst0
  · intro k e hmem hkeep
    constructor
    · rw [prepareItem_details_eq]
      exact List.mem_filterMap.mpr ⟨(k, e), hmem, by rw [hkeep]; rfl⟩
    · intro hnoarr
      rw [detailRowOf]
      cases hv : e.valueOf with
      | vArr xs => exact absurd hv (hnoarr xs)
      | vNull => simp [hv]
      | vUndefined => simp [hv]
      | vBool b => simp [hv]
      | vNum n => simp [hv]
      | vStr s => simp [hv]
      | vObj fs => simp [hv]

/-- C3 witness: a concrete item with a scalar detail value and unset
search terms is normalized as stated. -/
theorem prepareItem_normalizes_witness :
    let item : RawItem := { details := [("title", .obj (some "Title") (.vStr "hello") false)] }
    (∀ row ∈ (prepareItem item).details, ∃ xs, row.value = JVal.vArr xs)
    ∧ (∃ s, (prepareItem item).searchTerms = JVal.vStr s)
    ∧ (∀ k e, (k, e) ∈ item.details → keepDetail e = true →
        detailRowOf k e ∈ (prepareItem item).details
        ∧ ((∀ xs, e.valueOf ≠ JVal.vArr xs) →
            (detailRowOf k e).value = JVal.vArr [e.valueOf])) :=
  prepareItem_normalizes _ (Or.inl rfl)

theorem assoc_eq_of_nodup_keys {β : Type} {l : List (String × β)}
    (hnd : (l.map Prod.fst).Nodup) {k : String} {a b : β}
    (ha : (k, a) ∈ l) (hb : (k, b) ∈ l) : a = b := by
  induction l with
  | nil => cases ha
  | cons p rest ih =>
    rw [List.map_cons, List.nodup_cons] at hnd
    rcases List.mem_cons.mp ha with ha0 | ha1
    · rcases List.mem_cons.mp hb with hb0 | hb1
      · rw [← ha0] at hb0
        exact (Prod.mk.injEq _ _ _ _).mp hb0.symm |>.2
      · exfalso
        apply hnd.1
        have : p.1 = k := by rw [← ha0]
        rw [this]
        exact List.mem_map.mpr ⟨(k, b), hb1, rfl⟩
    · rcases List.mem_cons.mp hb with hb0 | hb1
      · exfalso
        apply hnd.1
        have : p.1 = k := by rw [← hb0]
        rw [this]
        exact List.mem_map.mpr ⟨(k, a), ha1, rfl⟩
      · exact ih hnd.2 ha1 hb1

theorem string_length_ne_zero_iff (s : String) : s.length ≠ 0 ↔ s ≠ "" := by
  rw [string_ne_empty_iff_data]
  show ¬s.data.length = 0 ↔ _
  rw [not_iff_not, List.length_eq_zero]

theorem jsKeepValue_iff (v : JVal) :
    jsKeepValue v = true ↔
      (v = JVal.vBool false ∨ ∃ n, v.jsLength = some (n + 1)) := by
  cases v with
  | vNull => simp [jsKeepValue, JVal.truthy, JVal.jsLength]
  | vUndefined => simp [jsKeepValue, JVal.truthy, JVal.jsLength]
  | vBool b => cases b <;> simp [jsKeepValue, JVal.truthy, JVal.jsLength]
  | vNum n => simp [jsKeepValue, JVal.truthy, JVal.jsLength]
  | vObj fs => simp [jsKeepValue, JVal.truthy, JVal.jsLength]
  | vStr s =>
    simp only [jsKeepValue, JVal.truthy, JVal.jsLength]
    cases hl : s.length with
    | zero =>
      have hs : s = "" := by
        have := (string_length_ne_zero_iff s).not_left
        simp only [not_not] at this
        exact this.mp hl
      subst hs
      simp
    | succ n =>
      have hs : s ≠ "" := (string_length_ne_zero_iff s).mp (by rw [hl]; exact n.succ_ne_zero)
      simp [hs, hl]
  | vArr xs =>
    simp only [jsKeepValue, JVal.truthy, JVal.jsLength]
    cases hl : xs.length with
    | zero => simp
    | succ n => simp [hl]

/-- C9: a raw detail entry yields a display row exactly when it is
neither `null` nor `undefined` and its value is the boolean `false` or
has nonzero length (a non-empty string or array); empty strings, empty
arrays, `null` entries, numbers and `true` are all dropped. -/
theorem prepareItem_detail_row_iff (item : RawItem)
    (hnd : (item.details.map Prod.fst).Nodup) (k : String) (e : DetailEntry)
    (hmem : (k, e) ∈ item.details) :
    (∃ row ∈ (prepareItem item).details, row.name = k) ↔
      (e.isNullOrUndefined = false
        ∧ (e.valueOf = JVal.vBool false ∨ ∃ n, e.valueOf.jsLength = some (n + 1))) := by
  have hkeep : keepDetail e = true ↔
      (e.isNullOrUndefined = false
        ∧ (e.valueOf = JVal.vBool false ∨ ∃ n, e.valueOf.jsLength = some (n + 1))) := by
    rw [keepDetail, Bool.and_eq_true, Bool.not_eq_true', jsKeepValue_iff]
  constructor
  · intro ⟨row, hrow, hname⟩
    rw [prepareItem_details_eq] at hrow
    obtain ⟨p, hp, hif⟩ := List.mem_filterMap.mp hrow
    by_cases hk : keepDetail p.2 = true
    · rw [if_pos hk] at hif
      cases hif
      have hp1 : p.1 = k := hname
      have hpe : p.2 = e := by
        apply assoc_eq_of_nodup_keys hnd _ hmem
        rw [← hp1]
        exact hp
      rw [hpe] at hk
      exact hkeep.mp hk
    · rw [if_neg hk] at hif
      cases hif
  · intro hcond
    refine ⟨detailRowOf k e, ?_, rfl⟩
    rw [prepareItem_details_eq]
    exact List.mem_filterMap.mpr ⟨(k, e), hmem, by rw [hkeep.mpr hcond]; rfl⟩

/-- C9 witness: on a concrete detail map, the non-empty string row is
kept and the claimed condition holds for it. -/
theorem prepareItem_detail_row_iff_witness :
    let e : DetailEntry := .obj (some "Title") (.vStr "hello") false
    let item : RawItem := { details := [("title", e), ("empty", .obj (some "E") (.vStr "") false)] }
    (∃ row ∈ (prepareItem item).details, row.name = "title") ↔
      (e.isNullOrUndefined = false
        ∧ (e.valueOf = JVal.vBool false ∨ ∃ n, e.valueOf.jsLength = some (n + 1))) :=
  prepareItem_detail_row_iff _ (by simp) "title" _ (by simp)

/-- C10: `getSheetInfo` keeps the list length, leaves the summary entry at
index 0 without a preview (its incoming preview, absent as delivered by
the host, is untouched), and assigns every later entry the single-sheet
URL built from the app id, that sheet's id and the options string
`"nointeraction,noselections"`. -/
theorem getSheetInfo_previews (g : GlobalOpts) (appId : String)
    (info : List RawItem) (i : Nat) (h : i < info.length) :
    (getSheetInfo g appId info).length = info.length
    ∧ ((getSheetInfo g appId info).getD i {}).preview =
        (if i = 0 then ((info.getD i {} : RawItem)).preview
         else some (getSingleSheetUrl g
           { appId := appId, sheetId := (info.getD i {} : RawItem).id,
             opts := some "nointeraction,noselections" })) := by
  constructor
  · rw [getSheetInfo, List.length_map, List.enum_length]
  · obtain ⟨v, hv⟩ : ∃ v, info[i]? = some v := ⟨_, List.getElem?_eq_getElem h⟩
    rw [getSheetInfo, List.getD_eq_getElem?_getD, List.getElem?_map, List.getElem?_enum, hv,
      List.getD_eq_getElem?_getD, hv]
    by_cases h0 : i = 0
    · subst h0
      simp
    · have hne : (i != 0) = true := by simp [h0]
      simp [hne, h0]

/-- C10 witness: on a three-sheet list, the second entry receives its
preview URL. -/
theorem getSheetInfo_previews_witness :
    (getSheetInfo {} "app1" [{ id := "s0" }, { id := "s1" }, { id := "s2" }]).length =
        ([{ id := "s0" }, { id := "s1" }, { id := "s2" }] : List RawItem).length
    ∧ ((getSheetInfo {} "app1" [{ id := "s0" }, { id := "s1" }, { id := "s2" }]).getD 1 {}).preview =
        (if 1 = 0 then (([{ id := "s0" }, { id := "s1" }, { id := "s2" }] : List RawItem).getD 1 {}).preview
         else some (getSingleSheetUrl {}
           { appId := "app1",
             sheetId := (([{ id := "s0" }, { id := "s1" }, { id := "s2" }] : List RawItem).getD 1 {}).id,
             opts := some "nointeraction,noselections" })) :=
  getSheetInfo_previews {} "app1" _ 1 (by simp)

theorem lookup_append_of_isSome {β : Type} (l m : List (String × β)) (k : String)
    (h : (l.lookup k).isSome = true) : (l ++ m).lookup k = l.lookup k := by
  induction l with
  | nil => simp [List.lookup_nil] at h
  | cons p rest ih =>
    obtain ⟨k0, v0⟩ := p
    rw [List.cons_append, List.lookup_cons, List.lookup_cons]
    cases hk : k == k0 with
    | true => rfl
    | false =>
      rw [List.lookup_cons, hk] at h
      exact ih h

theorem lookup_append_of_none {β : Type} (l m : List (String × β)) (k : String)
    (h : l.lookup k = none) : (l ++ m).lookup k = m.lookup k := by
  induction l with
  | nil => simp
  | cons p rest ih =>
    obtain ⟨k0, v0⟩ := p
    rw [List.lookup_cons, List.cons_append, List.lookup_cons] at *
    cases hk : k == k0 with
    | true =>
      rw [hk] at h
      exact absurd h (Option.some_ne_none _)
    | false =>
      rw [hk] at h
      exact ih h

theorem lookup_singleton_self {β : Type} (k : String) (v : β) :
    ([(k, v)] : List (String × β)).lookup k = some v := by
  rw [List.lookup_cons]
  simp

/-- The cache/log invariant of the `openApp` state: no identifier was
passed to `qlik.openApp` twice, and every logged identifier is cached. -/
def OpenAppWF (st : OpenAppState) : Prop :=
  st.openCalls.Nodup ∧ ∀ i ∈ st.openCalls, ((st.apps.lookup i).isSome = true)

theorem openAppById_wf (appId : String) (st : OpenAppState) (hwf : OpenAppWF st) :
    OpenAppWF (openAppById appId st).2 := by
  obtain ⟨hnd, hmem⟩ := hwf
  rw [openAppById]
  by_cases h1 : ((st.apps.lookup st.currApp.id).isSome = true)
  · rw [if_pos h1]
    by_cases h2 : ((st.apps.lookup appId).isSome = true)
    · rw [if_pos h2]
      exact ⟨hnd, hmem⟩
    · rw [if_neg h2]
      refine ⟨?_, ?_⟩
      · rw [List.nodup_append]
        refine ⟨hnd, List.nodup_singleton _, List.disjoint_singleton.mpr ?_⟩
        intro hc
        exact h2 (hmem appId hc)
      · intro i hi
        rcases List.mem_append.mp hi with hiold | hinew
        · rw [lookup_append_of_isSome _ _ _ (hmem i hiold)]
          exact hmem i hiold
        · rw [List.mem_singleton] at hinew
          subst hinew
          rw [lookup_append_of_none _ _ _ (by
            cases hl : st.apps.lookup i with
            | none => rfl
            | some v => rw [hl] at h2; exact absurd rfl h2), lookup_singleton_self]
          rfl
  · rw [if_neg h1]
    have hlift : ∀ j, ((st.apps.lookup j).isSome = true) →
        (((st.apps ++ [(st.currApp.id, AppPromise.resolvedApp st.currApp.id)]).lookup j).isSome = true) := by
      intro j hj
      rw [lookup_append_of_isSome _ _ _ hj]
      exact hj
    by_cases h2 : (((st.apps ++ [(st.currApp.id, AppPromise.resolvedApp st.currApp.id)]).lookup appId).isSome = true)
    · rw [if_pos h2]
      exact ⟨hnd, fun i hi => hlift i (hmem i hi)⟩
    · rw [if_neg h2]
      refine ⟨?_, ?_⟩
      · rw [List.nodup_append]
        refine ⟨hnd, List.nodup_singleton _, List.disjoint_singleton.mpr ?_⟩
        intro hc
        exact h2 (hlift appId (hmem appId hc))
      · intro i hi
        rcases List.mem_append.mp hi with hiold | hinew
        · rw [lookup_append_of_isSome _ _ _ (hlift i (hmem i hiold))]
          exact hlift i (hmem i hiold)
        · rw [List.mem_singleton] at hinew
          subst hinew
          rw [lookup_append_of_none _ _ _ (by
            cases hl : (st.apps ++ [(st.currApp.id, AppPromise.resolvedApp st.currApp.id)]).lookup i with
            | none => rfl
            | some v => rw [hl] at h2; exact absurd rfl h2), lookup_singleton_self]
          rfl

theorem lookup_none_of_not_isSome {β : Type} {l : List (String × β)} {k : String}
    (h : ¬((l.lookup k).isSome = true)) : l.lookup k = none := by
  cases hl : l.lookup k with
  | none => rfl
  | some v => rw [hl] at h; exact absurd rfl h

theorem openAppById_currApp (appId : String) (st : OpenAppState) :
    (openAppById appId st).2.currApp = st.currApp := by
  rw [openAppById]
  by_cases h1 : ((st.apps.lookup st.currApp.id).isSome = true)
  · rw [if_pos h1]
    by_cases h2 : ((st.apps.lookup appId).isSome = true)
    · rw [if_pos h2]
    · rw [if_neg h2]
  · rw [if_neg h1]
    by_cases h2 : (((st.apps ++ [(st.currApp.id, AppPromise.resolvedApp st.currApp.id)]).lookup appId).isSome = true)
    · rw [if_pos h2]
    · rw [if_neg h2]

theorem openAppById_lookup_self (appId : String) (st : OpenAppState) :
    (((openAppById appId st).2.apps.lookup appId).isSome = true) := by
  rw [openAppById]
  by_cases h1 : ((st.apps.lookup st.currApp.id).isSome = true)
  · rw [if_pos h1]
    by_cases h2 : ((st.apps.lookup appId).isSome = true)
    · rw [if_pos h2]
      exact h2
    · rw [if_neg h2]
      rw [lookup_append_of_none _ _ _ (lookup_none_of_not_isSome h2), lookup_singleton_self]
      rfl
  · rw [if_neg h1]
    by_cases h2 : (((st.apps ++ [(st.currApp.id, AppPromise.resolvedApp st.currApp.id)]).lookup appId).isSome = true)
    · rw [if_pos h2]
      exact h2
    · rw [if_neg h2]
      rw [lookup_append_of_none _ _ _ (lookup_none_of_not_isSome h2), lookup_singleton_self]
      rfl

theorem openAppById_lookup_curr (appId : String) (st : OpenAppState) :
    (((openAppById appId st).2.apps.lookup st.currApp.id).isSome = true) := by
  rw [openAppById]
  by_cases h1 : ((st.apps.lookup st.currApp.id).isSome = true)
  · rw [if_pos h1]
    by_cases h2 : ((st.apps.lookup appId).isSome = true)
    · rw [if_pos h2]
      exact h1
    · rw [if_neg h2]
      rw [lookup_append_of_isSome _ _ _ h1]
      exact h1
  · rw [if_neg h1]
    have hcur : (((st.apps ++ [(st.currApp.id, AppPromise.resolvedApp st.currApp.id)]).lookup st.currApp.id).isSome = true) := by
      rw [lookup_append_of_none _ _ _ (lookup_none_of_not_isSome h1), lookup_singleton_self]
      rfl
    by_cases h2 : (((st.apps ++ [(st.currApp.id, AppPromise.resolvedApp st.currApp.id)]).lookup appId).isSome = true)
    · rw [if_pos h2]
      exact hcur
    · rw [if_neg h2]
      rw [lookup_append_of_isSome _ _ _ hcur]
      exact hcur

theorem openAppById_fst (appId : String) (st : OpenAppState) :
    (openAppById appId st).1 =
      ((openAppById appId st).2.apps.lookup appId).getD (.rejected "") := by
  rw [openAppById]

theorem openAppById_idem (appId : String) (st : OpenAppState) :
    openAppById appId (openAppById appId st).2 = openAppById appId st := by
  have hcur := openAppById_lookup_curr appId st
  have hself := openAppById_lookup_self appId st
  have hres := openAppById_fst appId st
  have hstep : openAppById appId (openAppById appId st).2 =
      (((openAppById appId st).2.apps.lookup appId).getD (.rejected ""),
        (openAppById appId st).2) := by
    conv_lhs => rw [openAppById]
    rw [openAppById_currApp, if_pos hcur, if_pos hself]
  rw [hstep, ← hres]

theorem openApp_wf (r : AppRef) (st : OpenAppState) (hwf : OpenAppWF st) :
    OpenAppWF (openApp r st).2 := by
  cases r with
  | byId appId =>
    rw [openApp]
    by_cases h : appId = ""
    · rw [if_pos h]
      exact hwf
    · rw [if_neg h]
      exact openAppById_wf appId st hwf
  | byApp app =>
    rw [openApp]
    by_cases h : ((app.id != "") = true)
    · rw [if_pos h]
      exact hwf
    · rw [if_neg h]
      exact openAppById_wf _ st hwf

theorem runOpenApps_wf (refs : List AppRef) :
    ∀ st : OpenAppState, OpenAppWF st → OpenAppWF (runOpenApps refs st) := by
  induction refs with
  | nil => intro st hwf; exact hwf
  | cons r rest ih =>
    intro st hwf
    rw [runOpenApps, List.foldl_cons]
    exact ih _ (openApp_wf r st hwf)

/-- C4: the module keeps a single in-memory connection per app: calling
`openApp` again with the same identifier returns the same promise and
leaves the cache state unchanged, and across any sequence of `openApp`
calls in a session the host's `qlik.openApp` is invoked at most once per
distinct identifier (its call log stays duplicate-free). -/
theorem openApp_single_connection_per_app :
    (∀ (st : OpenAppState) (appId : String), appId ≠ "" →
      openApp (.byId appId) (openApp (.byId appId) st).2 = openApp (.byId appId) st)
    ∧ (∀ (currApp : QlikApp) (refs : List AppRef),
        (runOpenApps refs (initialOpenAppState currApp)).openCalls.Nodup) := by
  constructor
  · intro st appId h
    rw [openApp, if_neg h, openApp, if_neg h]
    exact openAppById_idem appId st
  · intro currApp refs
    exact (runOpenApps_wf refs (initialOpenAppState currApp)
      ⟨List.nodup_nil, fun i hi => absurd hi (List.not_mem_nil i)⟩).1

/-- C4 witness: a concrete double open of the same identifier, and a
duplicate-free call log over a concrete session. -/
theorem openApp_single_connection_per_app_witness :
    openApp (.byId "other") (openApp (.byId "other") (initialOpenAppState { id := "cur" })).2 =
      openApp (.byId "other") (initialOpenAppState { id := "cur" })
    ∧ (runOpenApps [.byId "a", .byId "a", .byId "b"]
        (initialOpenAppState { id := "cur" })).openCalls.Nodup :=
  ⟨openApp_single_connection_per_app.1 _ "other" (by decide),
    openApp_single_connection_per_app.2 { id := "cur" } _⟩

/-- C8: the configured state machine admits exactly the transitions
IDLE-to-MODAL on OPEN and MODAL-to-IDLE on CLOSE; when the modal closes,
the machine returns to IDLE and the modal handle is cleared to `null`;
and the controller's `$destroy` handler leaves no open modal behind. -/
theorem modal_session_lifecycle :
    (∀ (s s2 : FsmState) (e : String), fsmStep s e = some s2 →
      (s = FsmState.IDLE ∧ s2 = FsmState.MODAL ∧ e = "OPEN")
      ∨ (s = FsmState.MODAL ∧ s2 = FsmState.IDLE ∧ e = "CLOSE"))
    ∧ (∀ s : ControllerState, (controllerStep s .modalClosed).modal = none
        ∧ (s.fsm = FsmState.MODAL → (controllerStep s .modalClosed).fsm = FsmState.IDLE))
    ∧ (∀ s : ControllerState, (controllerStep s .destroy).modal = none) := by
  have hstep : ∀ (s : FsmState) (e : String), fsmStep s e =
      (if s = FsmState.IDLE ∧ e = "OPEN" then some FsmState.MODAL
       else if s = FsmState.MODAL ∧ e = "CLOSE" then some FsmState.IDLE
       else none) := by
    intro s e
    by_cases he : e = "OPEN"
    · subst he
      cases s <;> rfl
    · by_cases hc : e = "CLOSE"
      · subst hc
        cases s <;> rfl
      · have h1 : ("OPEN" == e) = false := beq_eq_false_iff_ne.mpr (fun h => he h.symm)
        have h2 : ("CLOSE" == e) = false := beq_eq_false_iff_ne.mpr (fun h => hc h.symm)
        cases s <;> simp [fsmStep, fsmTransitions, List.find?, h1, h2, he, hc]
  refine ⟨?_, ?_, ?_⟩
  · intro s s2 e h
    rw [hstep] at h
    by_cases h1 : s = FsmState.IDLE ∧ e = "OPEN"
    · rw [if_pos h1] at h
      cases h
      exact Or.inl ⟨h1.1, rfl, h1.2⟩
    · rw [if_neg h1] at h
      by_cases h2 : s = FsmState.MODAL ∧ e = "CLOSE"
      · rw [if_pos h2] at h
        cases h
        exact Or.inr ⟨h2.1, rfl, h2.2⟩
      · rw [if_neg h2] at h
        cases h
  · intro s
    constructor
    · show (onModalClosed s).modal = none
      rw [onModalClosed]
      cases h : fsmStep s.fsm "CLOSE" <;> rfl
    · intro hm
      show (onModalClosed s).fsm = FsmState.IDLE
      rw [onModalClosed, hstep, hm]
      rfl
  · intro s
    show (match s.modal with
      | some _ => onModalClosed s
      | none => s).modal = none
    cases h : s.modal with
    | some u =>
      simp only
      rw [onModalClosed]
      cases h2 : fsmStep s.fsm "CLOSE" <;> rfl
    | none => exact h

/-- C8 witness: the OPEN transition is classified as stated, and closing
from a concrete open-modal state returns the machine to IDLE. -/
theorem modal_session_lifecycle_witness :
    ((FsmState.IDLE = FsmState.IDLE ∧ FsmState.MODAL = FsmState.MODAL ∧ "OPEN" = "OPEN")
      ∨ (FsmState.IDLE = FsmState.MODAL ∧ FsmState.MODAL = FsmState.IDLE ∧ "OPEN" = "CLOSE"))
    ∧ (controllerStep { fsm := FsmState.MODAL, modal := some () } .modalClosed).fsm =
        FsmState.IDLE :=
  ⟨modal_session_lifecycle.1 FsmState.IDLE FsmState.MODAL "OPEN" rfl,
    (modal_session_lifecycle.2.1 { fsm := FsmState.MODAL, modal := some () }).2 rfl⟩

/-- C6: opening the inspector issues exactly the ten enumerated metadata
queries, the display model is produced only once every one of them has
resolved, and the `chart` / `extension` categories are the partition of
the grouped sheet objects on the `isThirdParty` flag. -/
theorem inspector_queries_and_partition :
    inspectorQueryKeys = ["app", "script", "field", "sheet", "dimension", "measure",
      "masterObject", "alternate-state", "variable", "bookmark"]
    ∧ (∀ (host : HostApi) (appId : String) (q : InspectorQueries)
        (extensionList : List (String × ExtListEntry)) (m : DisplayModel),
        runInspector host appId q extensionList = some m →
        (q.app.isResolved = true ∧ q.script.isResolved = true ∧ q.field.isResolved = true
          ∧ q.sheet.isResolved = true ∧ q.dimension.isResolved = true
          ∧ q.measure.isResolved = true ∧ q.masterObject.isResolved = true
          ∧ q.alternateState.isResolved = true ∧ q.variableQ.isResolved = true
          ∧ q.bookmark.isResolved = true)
        ∧ m.chart = (getUniqueAppObjectsFromSheets host (q.sheet.getD []) extensionList
            appId).filter (fun a => ! a.isThirdParty)
        ∧ m.extension = (getUniqueAppObjectsFromSheets host (q.sheet.getD []) extensionList
            appId).filter (fun a => a.isThirdParty)) := by
  refine ⟨rfl, ?_⟩
  intro host appId q extensionList m hrun
  rw [runInspector, resolveInspectorQueries] at hrun
  by_cases hall : (q.app.isResolved && q.script.isResolved && q.field.isResolved
      && q.sheet.isResolved && q.dimension.isResolved && q.measure.isResolved
      && q.masterObject.isResolved && q.alternateState.isResolved
      && q.variableQ.isResolved && q.bookmark.isResolved) = true
  · rw [if_pos hall] at hrun
    rw [Option.map_some'] at hrun
    have hflags := hall
    repeat rw [Bool.and_eq_true] at hflags
    obtain ⟨⟨⟨⟨⟨⟨⟨⟨⟨h1, h2⟩, h3⟩, h4⟩, h5⟩, h6⟩, h7⟩, h8⟩, h9⟩, h10⟩ := hflags
    refine ⟨⟨h1, h2, h3, h4, h5, h6, h7, h8, h9, h10⟩, ?_, ?_⟩
    · rw [← Option.some_inj.mp hrun]
      rfl
    · rw [← Option.some_inj.mp hrun]
      rfl
  · rw [if_neg hall] at hrun
    cases hrun

/-- C6 witness: with all ten queries resolved on concrete values, the
model exists and partitions the grouped objects as stated. -/
theorem inspector_queries_and_partition_witness :
    inspectorQueryKeys = ["app", "script", "field", "sheet", "dimension", "measure",
      "masterObject", "alternate-state", "variable", "bookmark"]
    ∧ (((QueryState.resolved ([] : List RawItem)).isResolved = true
          ∧ (QueryState.resolved ([] : List RawItem)).isResolved = true
          ∧ (QueryState.resolved ([] : List RawItem)).isResolved = true
          ∧ (QueryState.resolved ([] : List RawItem)).isResolved = true
          ∧ (QueryState.resolved ([] : List RawItem)).isResolved = true
          ∧ (QueryState.resolved ([] : List RawItem)).isResolved = true
          ∧ (QueryState.resolved ([] : List RawItem)).isResolved = true
          ∧ (QueryState.resolved ([] : List RawItem)).isResolved = true
          ∧ (QueryState.resolved ([] : List RawItem)).isResolved = true
          ∧ (QueryState.resolved ([] : List RawItem)).isResolved = true)
        ∧ (populateDisplayModel {} "a" {} []).chart =
            (getUniqueAppObjectsFromSheets {} ((QueryState.resolved ([] : List RawItem)).getD [])
              [] "a").filter (fun a => ! a.isThirdParty)
        ∧ (populateDisplayModel {} "a" {} []).extension =
            (getUniqueAppObjectsFromSheets {} ((QueryState.resolved ([] : List RawItem)).getD [])
              [] "a").filter (fun a => a.isThirdParty)) :=
  ⟨inspector_queries_and_partition.1,
    inspector_queries_and_partition.2 {} "a"
      { app := .resolved [], script := .resolved [], field := .resolved []
        sheet := .resolved [], dimension := .resolved [], measure := .resolved []
        masterObject := .resolved [], alternateState := .resolved []
        variableQ := .resolved [], bookmark := .resolved [] } [] _ rfl⟩

theorem uniqBy_cons {α κ : Type} [DecidableEq κ] (f : α → κ) (x : α) (xs : List α) :
    uniqBy f (x :: xs) = x :: uniqBy f (xs.filter (fun y => decide (f y ≠ f x))) := by
  rw [uniqBy]

theorem mem_of_mem_uniqBy {α κ : Type} [DecidableEq κ] (f : α → κ) (l : List α) :
    ∀ a, a ∈ uniqBy f l → a ∈ l := by
  induction l using uniqBy.induct (f := f) with
  | case1 => intro a h; simp [uniqBy] at h
  | case2 x xs ih =>
    intro a h
    rw [uniqBy_cons] at h
    rcases List.mem_cons.mp h with h0 | h1
    · exact h0 ▸ List.mem_cons_self x xs
    · exact List.mem_cons_of_mem _ (List.mem_of_mem_filter (ih a h1))

theorem map_uniqBy_nodup {α κ : Type} [DecidableEq κ] (f : α → κ) (l : List α) :
    ((uniqBy f l).map f).Nodup := by
  induction l using uniqBy.induct (f := f) with
  | case1 => simp [uniqBy]
  | case2 x xs ih =>
    rw [uniqBy_cons, List.map_cons, List.nodup_cons]
    refine ⟨?_, ih⟩
    intro hc
    obtain ⟨y, hy, hfy⟩ := List.mem_map.mp hc
    have hyf := mem_of_mem_uniqBy _ _ y hy
    have hdec := List.of_mem_filter hyf
    rw [decide_eq_true_eq] at hdec
    exact hdec hfy

theorem mem_map_uniqBy {α κ : Type} [DecidableEq κ] (f : α → κ) (l : List α) (b : κ) :
    b ∈ (uniqBy f l).map f ↔ b ∈ l.map f := by
  induction l using uniqBy.induct (f := f) with
  | case1 => rw [uniqBy]
  | case2 x xs ih =>
    rw [uniqBy_cons, List.map_cons, List.map_cons, List.mem_cons, List.mem_cons, ih]
    constructor
    · rintro (h0 | h1)
      · exact Or.inl h0
      · obtain ⟨y, hy, rfl⟩ := List.mem_map.mp h1
        exact Or.inr (List.mem_map.mpr ⟨y, List.mem_of_mem_filter hy, rfl⟩)
    · rintro (h0 | h1)
      · exact Or.inl h0
      · obtain ⟨y, hy, rfl⟩ := List.mem_map.mp h1
        by_cases hfx : f y = f x
        · exact Or.inl hfx
        · exact Or.inr (List.mem_map.mpr ⟨y, List.mem_filter.mpr ⟨hy, by simp [hfx]⟩, rfl⟩)

theorem prepareItem_id (item : RawItem) : (prepareItem item).id = item.id := rfl

theorem prepareItem_label (item : RawItem) : (prepareItem item).label = item.label := rfl

theorem prepareItem_count (item : RawItem) : (prepareItem item).count = item.count := rfl

theorem buildGroupedItem_id (host : HostApi) (si : List RawItem)
    (el : List (String × ExtListEntry)) (aid : String) (objs : List SheetObject)
    (t : SheetObject) :
    (buildGroupedItem host si el aid objs t).id = t.properties.qInfo.qType := by
  simp only [buildGroupedItem]
  split <;> rfl

theorem buildGroupedItem_count (host : HostApi) (si : List RawItem)
    (el : List (String × ExtListEntry)) (aid : String) (objs : List SheetObject)
    (t : SheetObject) :
    (buildGroupedItem host si el aid objs t).count =
      (if 1 < (objs.filter (fun a =>
          t.properties.qInfo.qType == a.properties.qInfo.qType)).length
       then (objs.filter (fun a =>
          t.properties.qInfo.qType == a.properties.qInfo.qType)).length
       else 0) := by
  simp only [buildGroupedItem]
  by_cases h : 1 < (objs.filter (fun a =>
      t.properties.qInfo.qType == a.properties.qInfo.qType)).length
  · simp [h]
  · simp [h]

theorem string_beq_comm (x y : String) : (x == y) = (y == x) := by
  by_cases h : x = y
  · subst h
    rfl
  · rw [beq_eq_false_iff_ne.mpr h, beq_eq_false_iff_ne.mpr (Ne.symm h)]

/-- C1: `getUniqueAppObjectsFromSheets` returns exactly one item per
distinct visualization type occurring on the sheets (the item ids are
duplicate-free and range over exactly the occurring `qInfo.qType`
values), and each item's `count` is the number of merged objects of that
type when there is more than one, and `0` when the type occurs exactly
once. -/
theorem getUniqueAppObjectsFromSheets_groups_by_type (host : HostApi)
    (si : List RawItem) (el : List (String × ExtListEntry)) (aid : String) :
    (((getUniqueAppObjectsFromSheets host si el aid).map (fun it => it.id)).Nodup)
    ∧ (∀ t : String, t ∈ (getUniqueAppObjectsFromSheets host si el aid).map (fun it => it.id)
        ↔ t ∈ (sheetObjectsOf si).map (fun a => a.properties.qInfo.qType))
    ∧ (∀ it ∈ getUniqueAppObjectsFromSheets host si el aid,
        it.count = (if 1 < ((sheetObjectsOf si).map
              (fun a => a.properties.qInfo.qType)).count it.id
          then ((sheetObjectsOf si).map (fun a => a.properties.qInfo.qType)).count it.id
          else 0)) := by
  have hmap1 : (getUniqueAppObjectsFromSheets host si el aid).map (fun it => it.id) =
      ((((uniqBy (fun a => a.properties.qInfo.qType) (sheetObjectsOf si)).map
        (buildGroupedItem host si el aid (sheetObjectsOf si))).mergeSort labelLe).map
          (fun r => r.id)) := by
    simp only [getUniqueAppObjectsFromSheets, List.map_map]
    rfl
  have hmap2 : (((uniqBy (fun a => a.properties.qInfo.qType) (sheetObjectsOf si)).map
      (buildGroupedItem host si el aid (sheetObjectsOf si))).map (fun r => r.id)) =
      ((uniqBy (fun a => a.properties.qInfo.qType) (sheetObjectsOf si)).map
        (fun a => a.properties.qInfo.qType)) := by
    rw [List.map_map]
    exact List.map_congr_left (fun tpl _ => buildGroupedItem_id host si el aid _ tpl)
  have hperm : ((((uniqBy (fun a => a.properties.qInfo.qType) (sheetObjectsOf si)).map
      (buildGroupedItem host si el aid (sheetObjectsOf si))).mergeSort labelLe).map
        (fun r => r.id)).Perm
      (((uniqBy (fun a => a.properties.qInfo.qType) (sheetObjectsOf si)).map
        (buildGroupedItem host si el aid (sheetObjectsOf si))).map (fun r => r.id)) :=
    (List.mergeSort_perm _ labelLe).map _
  refine ⟨?_, ?_, ?_⟩
  · rw [hmap1, hperm.nodup_iff, hmap2]
    exact map_uniqBy_nodup _ _
  · intro t
    rw [hmap1, hperm.mem_iff, hmap2]
    exact mem_map_uniqBy _ _ t
  · intro it hit
    simp only [getUniqueAppObjectsFromSheets] at hit
    obtain ⟨r, hr, rfl⟩ := List.mem_map.mp hit
    have hrL := (List.mergeSort_perm _ labelLe).mem_iff.mp hr
    obtain ⟨tpl, htpl, rfl⟩ := List.mem_map.mp hrL
    rw [prepareItem_count, prepareItem_id, buildGroupedItem_count, buildGroupedItem_id]
    have hcnt : ((sheetObjectsOf si).filter (fun a =>
        tpl.properties.qInfo.qType == a.properties.qInfo.qType)).length =
        ((sheetObjectsOf si).map (fun a => a.properties.qInfo.qType)).count
          tpl.properties.qInfo.qType := by
      show _ = List.countP (fun x => x == tpl.properties.qInfo.qType)
        ((sheetObjectsOf si).map (fun a => a.properties.qInfo.qType))
      rw [List.countP_map, ← List.countP_eq_length_filter]
      exact List.countP_congr (fun a _ => by
        show (tpl.properties.qInfo.qType == a.properties.qInfo.qType) = true ↔ _
        rw [string_beq_comm]
        exact Iff.rfl)
    rw [hcnt]

/-- C1 witness: on a concrete two-sheet app with a duplicated barchart
and a single kpi, the grouped ids are duplicate-free, `"barchart"` is
reported, and its grouped count is the claimed one. -/
theorem getUniqueAppObjectsFromSheets_groups_by_type_witness :
    let sA : RawItem := { id := "sheetA", label := "Alpha", visualizations := [
      { cellName := "obj1", properties := { qInfo := { qType := "barchart", qId := "obj1" } } },
      { cellName := "obj2", properties := { qInfo := { qType := "kpi", qId := "obj2" } } }] }
    let sB : RawItem := { id := "sheetB", label := "Beta", visualizations := [
      { cellName := "obj3", properties := { qInfo := { qType := "barchart", qId := "obj3" } } }] }
    (((getUniqueAppObjectsFromSheets {} [sA, sB] [] "myapp").map (fun it => it.id)).Nodup)
    ∧ ("barchart" ∈ (getUniqueAppObjectsFromSheets {} [sA, sB] [] "myapp").map
        (fun it => it.id)) :=
  ⟨(getUniqueAppObjectsFromSheets_groups_by_type {} _ [] "myapp").1,
    ((getUniqueAppObjectsFromSheets_groups_by_type {} _ [] "myapp").2.1 "barchart").mpr
      (by decide)⟩

/-- C5: the grouped visualization list is sorted ascending by label
compared case-insensitively (lowercased comparison, with the locale
order modelled by the lexicographic order on strings). -/
theorem getUniqueAppObjectsFromSheets_sorted_by_label (host : HostApi)
    (si : List RawItem) (el : List (String × ExtListEntry)) (aid : String) :
    List.Pairwise (fun a b : PreparedItem => a.label.toLower ≤ b.label.toLower)
      (getUniqueAppObjectsFromSheets host si el aid) := by
  have htrans : ∀ a b c : RawItem, labelLe a b = true → labelLe b c = true →
      labelLe a c = true := by
    intro a b c hab hbc
    rw [labelLe] at *
    exact decide_eq_true (le_trans (of_decide_eq_true hab) (of_decide_eq_true hbc))
  have htotal : ∀ a b : RawItem, (labelLe a b || labelLe b a) = true := by
    intro a b
    rcases le_total a.label.toLower b.label.toLower with h | h <;> simp [labelLe, h]
  simp only [getUniqueAppObjectsFromSheets]
  exact List.Pairwise.map prepareItem
    (fun a b hab => by
      rw [prepareItem_label, prepareItem_label]
      exact of_decide_eq_true hab)
    (List.sorted_mergeSort htrans htotal _)

theorem lookup_isSome_iff_mem_keys {α : Type} (ds : List (String × α)) (k : String) :
    ((ds.lookup k).isSome = true) ↔ k ∈ ds.map Prod.fst := by
  induction ds with
  | nil => simp [List.lookup_nil]
  | cons p rest ih =>
    obtain ⟨k0, v0⟩ := p
    rw [List.lookup_cons, List.map_cons, List.mem_cons]
    cases hk : k == k0 with
    | true =>
      have heq : k = k0 := eq_of_beq hk
      simp [heq]
    | false =>
      have hne : k ≠ k0 := ne_of_beq_false hk
      simp [hne, ih]

theorem setKey_keys {α : Type} (ds : List (String × α)) (k2 : String) (v : α) :
    (setKey ds k2 v).map Prod.fst =
      (if ((ds.lookup k2).isSome = true) then ds.map Prod.fst
       else ds.map Prod.fst ++ [k2]) := by
  rw [setKey]
  by_cases hex : ((ds.lookup k2).isSome = true)
  · rw [if_pos hex, if_pos hex, List.map_map]
    exact List.map_congr_left (fun p _ => by
      by_cases hp : ((p.1 == k2) = true)
      · have heq := eq_of_beq hp
        simp [Function.comp, hp, heq]
      · simp [Function.comp, hp])
  · rw [if_neg hex, if_neg hex, List.map_append]
    rfl

theorem setKey_lookup_isSome {α : Type} (ds : List (String × α)) (k k2 : String)
    (v : α) (h : ((ds.lookup k).isSome = true)) :
    (((setKey ds k2 v).lookup k).isSome = true) := by
  rw [lookup_isSome_iff_mem_keys] at h ⊢
  rw [setKey_keys]
  by_cases hex : ((ds.lookup k2).isSome = true)
  · rw [if_pos hex]
    exact h
  · rw [if_neg hex]
    exact List.mem_append.mpr (Or.inl h)

theorem applyDataDefinition_lookup_isSome (data : List (String × DataDetail)) :
    ∀ (ds : List (String × DetailEntry)) (k : String),
      ((ds.lookup k).isSome = true) →
      (((applyDataDefinition data ds).lookup k).isSome = true) := by
  induction data with
  | nil => intro ds k h; exact h
  | cons d rest ih =>
    intro ds k h
    rw [applyDataDefinition, List.foldl_cons]
    exact ih _ k (setKey_lookup_isSome _ _ _ _ h)

/-- C7: a grouped item for a type shared by several objects carries one
nested sub-item per object and its group-level raw details omit the
`title` and `subtitle` entries; a grouped item for a type with exactly
one object carries no sub-items, keeps `title` and `subtitle` among its
raw details, and carries the single-visualization preview URL built from
the app id and the object's id. -/
theorem buildGroupedItem_multi_vs_single (host : HostApi) (si : List RawItem)
    (el : List (String × ExtListEntry)) (aid : String) (t : SheetObject) :
    (1 < ((sheetObjectsOf si).filter (fun a =>
        t.properties.qInfo.qType == a.properties.qInfo.qType)).length →
      (∃ l, (buildGroupedItem host si el aid (sheetObjectsOf si) t).items = some l
          ∧ l.length = ((sheetObjectsOf si).filter (fun a =>
              t.properties.qInfo.qType == a.properties.qInfo.qType)).length)
      ∧ (buildGroupedItem host si el aid (sheetObjectsOf si) t).details.lookup "title" = none
      ∧ (buildGroupedItem host si el aid (sheetObjectsOf si) t).details.lookup "subtitle" = none)
    ∧ (((sheetObjectsOf si).filter (fun a =>
        t.properties.qInfo.qType == a.properties.qInfo.qType)).length = 1 →
      (buildGroupedItem host si el aid (sheetObjectsOf si) t).items = none
      ∧ (((buildGroupedItem host si el aid (sheetObjectsOf si) t).details.lookup "title").isSome = true)
      ∧ (((buildGroupedItem host si el aid (sheetObjectsOf si) t).details.lookup "subtitle").isSome = true)
      ∧ (buildGroupedItem host si el aid (sheetObjectsOf si) t).preview =
          some (getSingleVizUrl host.gopts
            { appId := aid,
              objId := ((sheetObjectsOf si).filter (fun a =>
                t.properties.qInfo.qType == a.properties.qInfo.qType)).headI.properties.qInfo.qId,
              opts := some "nointeraction,noselections" })) := by
  constructor
  · intro hmul
    simp only [buildGroupedItem]
    rw [if_pos hmul]
    refine ⟨⟨_, rfl, by rw [List.length_map, List.length_map]⟩, ?_, ?_⟩
    · rfl
    · rfl
  · intro hone
    have hnot : ¬(1 < ((sheetObjectsOf si).filter (fun a =>
        t.properties.qInfo.qType == a.properties.qInfo.qType)).length) := by
      rw [hone]
      omega
    simp only [buildGroupedItem]
    rw [if_neg hnot]
    refine ⟨rfl, ?_, ?_, rfl⟩
    · exact applyDataDefinition_lookup_isSome _ _ "title" rfl
    · exact applyDataDefinition_lookup_isSome _ _ "subtitle" rfl

/-- C7 witness: on a concrete app, the duplicated barchart carries two
sub-items without group-level title/subtitle, and the unique kpi keeps
them and gets its preview URL. -/
theorem buildGroupedItem_multi_vs_single_witness :
    let sA : RawItem := { id := "shA", label := "Alpha", visualizations := [
      { cellName := "o1", properties := { qInfo := { qType := "barchart", qId := "o1" } } },
      { cellName := "o2", properties := { qInfo := { qType := "kpi", qId := "o2" } } }] }
    let sB : RawItem := { id := "shB", label := "Beta", visualizations := [
      { cellName := "o3", properties := { qInfo := { qType := "barchart", qId := "o3" } } }] }
    let tBar : SheetObject := { properties := { qInfo := { qType := "barchart", qId := "o1" } } }
    let tKpi : SheetObject := { properties := { qInfo := { qType := "kpi", qId := "o2" } } }
    ((∃ l, (buildGroupedItem {} [sA, sB] [] "myapp" (sheetObjectsOf [sA, sB]) tBar).items = some l
        ∧ l.length = ((sheetObjectsOf [sA, sB]).filter (fun a =>
            tBar.properties.qInfo.qType == a.properties.qInfo.qType)).length)
      ∧ (buildGroupedItem {} [sA, sB] [] "myapp" (sheetObjectsOf [sA, sB]) tBar).details.lookup "title" = none
      ∧ (buildGroupedItem {} [sA, sB] [] "myapp" (sheetObjectsOf [sA, sB]) tBar).details.lookup "subtitle" = none)
    ∧ ((buildGroupedItem {} [sA, sB] [] "myapp" (sheetObjectsOf [sA, sB]) tKpi).items = none
      ∧ (((buildGroupedItem {} [sA, sB] [] "myapp" (sheetObjectsOf [sA, sB]) tKpi).details.lookup "title").isSome = true)
      ∧ (((buildGroupedItem {} [sA, sB] [] "myapp" (sheetObjectsOf [sA, sB]) tKpi).details.lookup "subtitle").isSome = true)
      ∧ (buildGroupedItem {} [sA, sB] [] "myapp" (sheetObjectsOf [sA, sB]) tKpi).preview =
          some (getSingleVizUrl ({} : HostApi).gopts
            { appId := "myapp",
              objId := ((sheetObjectsOf [sA, sB]).filter (fun a =>
                tKpi.properties.qInfo.qType == a.properties.qInfo.qType)).headI.properties.qInfo.qId,
              opts := some "nointeraction,noselections" })) :=
  ⟨(buildGroupedItem_multi_vs_single {} _ [] "myapp" _).1 (by decide),
    (buildGroupedItem_multi_vs_single {} _ [] "myapp" _).2 (by decide)⟩

end AppInspector
